import Mathlib

/-!
Verification of the kubeglass capture/decode/format pipeline.

Bytes are modelled as natural numbers (< 256 where the source guarantees it).
Go's `float64(c)/float64(n) > 0.9` comparison in `isPrintable` is embedded as
the exact integer comparison `10*c > 9*n`, which agrees with the float
computation for all counts that arise here (the quotient of two exactly
representable integers rounds to a double strictly between the doubles
adjacent to 0.9 only when the exact ratio itself is on that side of 9/10,
since for n ≤ 2^40 the gap |c/n - 9/10| is either 0 or at least 1/(10n),
far above the rounding error of one division).
-/

namespace Kubeglass

set_option maxRecDepth 20000

/-- Go `unicode.IsPrint` restricted to Latin-1 code points, which is the only
range reachable from a byte: printable ASCII `0x20..0x7e` plus the printable
Latin-1 block `0xa1..0xff` without the soft hyphen `0xad`. -/
def goIsPrint (b : Nat) : Bool :=
  (decide (32 ≤ b) && decide (b ≤ 126)) ||
  (decide (161 ≤ b) && decide (b ≤ 255) && decide (b ≠ 173))

/-- The per-byte test of `isPrintable`'s counting loop:
`b == '\n' || b == '\r' || b == '\t' || unicode.IsPrint(rune(b))`. -/
def countedPrintable (b : Nat) : Bool :=
  b == 10 || b == 13 || b == 9 || goIsPrint b

/-- Function `isPrintable` from `cmd/kubeglass/main.go` (identical in the
non-interactive variant): empty data is printable, otherwise the fraction of
counted-printable bytes must exceed 0.9. -/
def isPrintable (data : List Nat) : Bool :=
  if data.length = 0 then true
  else decide (10 * data.countP countedPrintable > 9 * data.length)

/-- Go `bytes.IndexByte`: index of the first occurrence of `t`, if any. -/
def indexOfByte (t : Nat) : List Nat → Option Nat
  | [] => none
  | b :: bs => if b = t then some 0 else (indexOfByte t bs).map (fun i => i + 1)

/-- The printability scan inside `formatData`: every byte is null, newline,
carriage return, tab, or printable. -/
def formatDataPrintable (data : List Nat) : Bool :=
  data.all fun b => b == 0 || b == 10 || b == 13 || b == 9 || goIsPrint b

/-- Go `bytes.TrimRight(data, "\x00")`: drop trailing null bytes. -/
def trimRightNulls (data : List Nat) : List Nat :=
  (data.reverse.dropWhile (fun b => b == 0)).reverse

/-- A byte as the character Go's byte-indexed string operations see. -/
def charOfByte (b : Nat) : Char := Char.ofNat b

/-- Go `strings.ReplaceAll s old new` for the one-character patterns
`formatData` passes: the non-overlapping occurrences of a single character
are exactly the positions holding that character, each replaced by `new`,
scanning left to right. -/
def replaceAllChar (a : Char) (new : List Char) : List Char → List Char
  | [] => []
  | c :: rest => (if c = a then new else [c]) ++ replaceAllChar a new rest

/-- One hex digit, lowercase, as produced by `encoding/hex`. -/
def hexDigit (n : Nat) : Char :=
  if n < 10 then Char.ofNat (48 + n) else Char.ofNat (87 + n)

/-- Two lowercase hex digits of a byte. -/
def byteHexChars (b : Nat) : List Char :=
  [hexDigit (b / 16), hexDigit (b % 16)]

/-- Eight lowercase hex digits of a dump offset. -/
def offsetHexChars (n : Nat) : List Char :=
  [hexDigit (n / 16 ^ 7 % 16), hexDigit (n / 16 ^ 6 % 16),
   hexDigit (n / 16 ^ 5 % 16), hexDigit (n / 16 ^ 4 % 16),
   hexDigit (n / 16 ^ 3 % 16), hexDigit (n / 16 ^ 2 % 16),
   hexDigit (n / 16 % 16), hexDigit (n % 16)]

/-- The right-hand column of `hex.Dump`: printable ASCII bytes show
themselves, everything else shows as a dot. -/
def dumpAsciiChar (b : Nat) : Char :=
  if b < 32 || 126 < b then '.' else Char.ofNat b

/-- One cell of the hex column of a `hex.Dump` line: the byte at position `i`
of the (at most 16 byte) chunk, or pad spaces, followed by the separator the
Go dumper emits at that position (an extra space after position 7, the
closing space-space-bar after position 15). -/
def hexCell (chunk : List Nat) (i : Nat) : List Char :=
  (match chunk.get? i with
   | some b => byteHexChars b
   | none => [' ', ' ']) ++
  (if i = 7 then [' ', ' '] else if i = 15 then [' ', ' ', '|'] else [' '])

/-- One full line of `hex.Dump` for a chunk of 1..16 bytes at `off`. -/
def dumpLine (off : Nat) (chunk : List Nat) : List Char :=
  offsetHexChars off ++ [' ', ' '] ++
  ((List.range 16).map (hexCell chunk)).flatten ++
  chunk.map dumpAsciiChar ++ ['|', '\n']

/-- All lines of `hex.Dump`, 16 input bytes per line. `fuel` only bounds the
recursion; any value at least the input length (each step consumes at least
one byte of a non-empty input) produces every line. -/
def dumpLines (fuel : Nat) (off : Nat) (data : List Nat) : List Char :=
  match fuel, data with
  | _, [] => []
  | 0, _ :: _ => []
  | fuel + 1, b :: rest =>
    dumpLine off ((b :: rest).take 16) ++ dumpLines fuel (off + 16) ((b :: rest).drop 16)

/-- Go `encoding/hex.Dump`. -/
def goHexDump (data : List Nat) : String :=
  String.mk (dumpLines data.length 0 data)

/-- Function `formatData` from `cmd/kubeglass/main.go` (identical in the
non-interactive variant). -/
def formatData (data : List Nat) : String :=
  if data.length = 0 then "<empty>"
  else
    let nullByteIndex := indexOfByte 0 data
    if formatDataPrintable data then
      let truncated :=
        match nullByteIndex with
        | some i => data.take i
        | none => data
      let cleanData := trimRightNulls truncated
      let s0 := cleanData.map charOfByte
      let s1 := replaceAllChar '\n' ['\\', 'n'] s0
      let s2 := replaceAllChar '\r' ['\\', 'r'] s1
      let s3 := replaceAllChar '\t' ['\\', 't'] s2
      String.mk s3
    else
      if 32 < data.length then
        goHexDump (data.take 32) ++ "... (" ++ toString data.length ++ " bytes total)"
      else
        goHexDump data

/-- Escaping of one byte as the spec describes the text rendering: newline,
carriage return and tab map to their two-character escapes, every other byte
is passed through unchanged. -/
def escByte (b : Nat) : List Char :=
  if b = 10 then ['\\', 'n']
  else if b = 13 then ['\\', 'r']
  else if b = 9 then ['\\', 't']
  else [charOfByte b]

/-- The spec's characterization of the text rendering: truncate at the first
null byte and escape newline/carriage-return/tab, altering no other byte. -/
def escTextRender (data : List Nat) : String :=
  String.mk ((data.takeWhile (fun b => !(b == 0))).map escByte).flatten

/-- Function `fdString` from `cmd/kubeglass/main.go` / the non-interactive variant. -/
def fdString (fd : Nat) : String :=
  if fd = 0 then "stdin"
  else if fd = 1 then "stdout"
  else if fd = 2 then "stderr"
  else "fd " ++ toString fd

/-- The shared kernel/user record: C `struct write_event_t` in
`bpf/write_tracer.c`, Go `bpfWriteEvent` in `cmd/kubeglass/main.go` and
`writeEvent` in the non-interactive variant. `data` always has 240 entries
in well-formed records. -/
structure WriteEvent where
  pid : Nat
  fd : Nat
  data : List Nat
  dataLen : Nat
  deriving Repr, DecidableEq

/-- The `w` little-endian bytes of `n` (the in-memory layout of a `__u32` on a
little-endian target, as `binary.LittleEndian` reads it back). -/
def leBytes : Nat → Nat → List Nat
  | 0, _ => []
  | w + 1, n => n % 256 :: leBytes w (n / 256)

/-- Read back a little-endian byte sequence as a natural number. -/
def leRead : List Nat → Nat
  | [] => 0
  | b :: bs => b + 256 * leRead bs

/-- The 252-byte wire image of a record: `pid` at offset 0, `fd` at offset 4,
the 240 data bytes at offset 8, `data_len` at offset 248 (the C struct has
no padding holes: 4+4+240+4, every field 4-byte aligned). -/
def encodeRecord (e : WriteEvent) : List Nat :=
  leBytes 4 e.pid ++ leBytes 4 e.fd ++ e.data ++ leBytes 4 e.dataLen

/-- Go `binary.Read(..., binary.LittleEndian, &bpfEvent)`: fails when the raw
sample is shorter than the fixed 252-byte layout, otherwise reads the four
fields in declaration order. -/
def decodeRecord (raw : List Nat) : Option WriteEvent :=
  if 252 ≤ raw.length then
    some { pid := leRead (raw.take 4)
           fd := leRead ((raw.drop 4).take 4)
           data := (raw.drop 8).take 240
           dataLen := leRead ((raw.drop 248).take 4) }
  else none

/-- Go slice expression `arr[:hi]` on a slice/array of length `arr.length`:
in bounds it yields the first `hi` elements, out of bounds it is a run-time
panic (`slice bounds out of range`), modelled as `none`. -/
def goSliceTo (arr : List Nat) (hi : Nat) : Option (List Nat) :=
  if hi ≤ arr.length then some (arr.take hi) else none

/-- The decoded user-space `Event`. -/
structure Event where
  pid : Nat
  fd : Nat
  payload : List Nat
  deriving Repr, DecidableEq

/-- Construction of the `Event` from a decoded record:
`Payload: bpfEvent.Data[:bpfEvent.DataLen]`, with no validation of
`DataLen`; `none` is the slice-bounds panic. -/
def buildEvent (e : WriteEvent) : Option Event :=
  (goSliceTo e.data e.dataLen).map fun p => { pid := e.pid, fd := e.fd, payload := p }

/-- Pad a captured prefix to the fixed 240-byte window; the BPF program's
`struct write_event_t event = {0}` zero-initializes the window. -/
def pad240 (l : List Nat) : List Nat :=
  l.take 240 ++ List.replicate (240 - (l.take 240).length) 0

/-- Function `trace_write` from `bpf/write_tracer.c`, for one invocation at
write-syscall entry. `watchSet` is the `target_pid` membership map, `userBuf`
the traced process's buffer, `readOk` whether `bpf_probe_read_user`
succeeds (on failure the window keeps its zero initialization while
`data_len` keeps the already-clamped count), `count` the syscall's
caller-declared byte count. `none` is the early return for an unwatched
pid; otherwise the returned record is handed to the transport. -/
def trace_write (watchSet : Nat → Bool) (pid fd : Nat) (userBuf : List Nat)
    (readOk : Bool) (count : Nat) : Option WriteEvent :=
  if watchSet pid then
    let clamped := if count > 240 then 240 else count
    let data :=
      if clamped > 0 && readOk then pad240 (userBuf.take clamped)
      else List.replicate 240 0
    some { pid := pid, fd := fd, data := data, dataLen := clamped }
  else none

/-! ## Interactive consumer (`cmd/kubeglass/tui.go`) -/

/-- The filter fields of `tuiModel` read by `pollNextEvent`. An active regex
is modelled by its match function on the raw payload. -/
structure FilterCfg where
  showAll : Bool
  fdFilter : Nat → Bool
  skipBinary : Bool
  grepRegex : Option (List Nat → Bool)

/-- One result of `m.rd.Read()` on the ring buffer. -/
inductive TuiRead where
  | closed
  | eof
  | readErr
  | record (raw : List Nat)

/-- The message a single iteration of `pollNextEvent` produces.
`nilMsg` is the `return nil` on `ringbuf.ErrClosed`/`io.EOF`; bubbletea's
event loop discards nil messages, so `nilMsg` never reaches `Update`. -/
inductive TuiMsg where
  | nilMsg
  | errMsg
  | eventMsg (e : Event)
  deriving DecidableEq

/-- What one loop iteration of `pollNextEvent` does with one read result:
return a message, continue the loop (a filtered-out record), or panic on the
unchecked `Data[:DataLen]` slice. -/
inductive PollOutcome where
  | yield (m : TuiMsg)
  | skip
  | panicked
  deriving DecidableEq

/-- The regex gate of `pollNextEvent`:
`m.grepRegex != nil && !m.grepRegex.Match(event.Payload)` suppresses; a nil
regex suppresses nothing. -/
def regexSkips (rx : Option (List Nat → Bool)) (payload : List Nat) : Bool :=
  match rx with
  | some r => !r payload
  | none => false

/-- One iteration of `pollNextEvent`: read, decode, build the event, then
the descriptor, binary and regex filters in source order. -/
def pollHandle (cfg : FilterCfg) (r : TuiRead) : PollOutcome :=
  match r with
  | .closed => .yield .nilMsg
  | .eof => .yield .nilMsg
  | .readErr => .yield .errMsg
  | .record raw =>
    match decodeRecord raw with
    | none => .yield .errMsg
    | some be =>
      match buildEvent be with
      | none => .panicked
      | some event =>
        if !cfg.showAll && !cfg.fdFilter event.fd then .skip
        else if cfg.skipBinary && !isPrintable event.payload then .skip
        else if regexSkips cfg.grepRegex event.payload then .skip
        else .yield (.eventMsg event)

/-- The overall result of `pollNextEvent` run against a queue of pending
read results: the first non-skipped outcome, or blocked on an empty queue. -/
inductive PollResult where
  | msg (m : TuiMsg)
  | panicked
  | blocked
  deriving DecidableEq

/-- Function `pollNextEvent` as a loop over the queued read results. -/
def pollNextEvent (cfg : FilterCfg) : List TuiRead → PollResult
  | [] => .blocked
  | r :: rest =>
    match pollHandle cfg r with
    | .skip => pollNextEvent cfg rest
    | .yield m => .msg m
    | .panicked => .panicked

/-- Keystrokes the `Update` handler distinguishes (plus a catch-all for the
characters fed to the text input while filtering). -/
inductive Key where
  | quitKey
  | enter
  | filterKey
  | clearKey
  | toggleAllKey
  | toggleBinaryKey
  | helpKey
  | other (c : Char)
  deriving DecidableEq

/-- A message delivered to `Update`: a poll message or a key. Window resizes
only touch the viewport and are omitted. -/
inductive Msg where
  | poll (m : TuiMsg)
  | key (k : Key)

/-- The model state the `Update` handler mutates. `terminated` records that
`tea.Quit` was returned, `err` that an error message was stored in `m.err`. -/
structure TuiState where
  filtering : Bool
  terminated : Bool
  inputValue : String
  grepRegex : Option (List Nat → Bool)
  showAll : Bool
  skipBinary : Bool
  helpShowAll : Bool
  events : List String
  err : Bool

/-- The `case Event` display line:
`fmt.Sprintf("[PID %d, %s] %s", msg.PID, fdString(msg.FD), formatData(msg.Payload))`. -/
def eventLine (pid fd : Nat) (dataStr : String) : String :=
  "[PID " ++ toString pid ++ ", " ++ fdString fd ++ "] " ++ dataStr

/-- The text a key contributes to the filter draft text input. -/
def keyText : Key → String
  | .other c => String.mk [c]
  | _ => ""

/-- The filtering-mode key handling of `Update`: the quit binding cancels
entry, enter compiles the draft into the active regex (a nil result for an
invalid pattern, the error being discarded), anything else feeds the text
input. -/
def updateFilteringKey (compile : String → Option (List Nat → Bool))
    (st : TuiState) : Key → TuiState
  | .quitKey => { st with filtering := false }
  | .enter => { st with grepRegex := compile st.inputValue, filtering := false }
  | k => { st with inputValue := st.inputValue ++ keyText k }

/-- The normal-mode key handling of `Update`. -/
def updateNormalKey (st : TuiState) : Key → TuiState
  | .quitKey => { st with terminated := true }
  | .filterKey => { st with filtering := true }
  | .clearKey => { st with inputValue := "", grepRegex := none }
  | .toggleAllKey => { st with showAll := !st.showAll }
  | .toggleBinaryKey => { st with skipBinary := !st.skipBinary }
  | .helpKey => { st with helpShowAll := !st.helpShowAll }
  | _ => st

/-- Function `tuiModel.Update` on one message. `compile` is `regexp.Compile`,
returning `none` for an invalid pattern (the Go code discards the error and
keeps the nil regex). A `nilMsg` leaves the state untouched: bubbletea's
event loop drops nil messages before `Update` ever runs. -/
def update (compile : String → Option (List Nat → Bool))
    (st : TuiState) (m : Msg) : TuiState :=
  match m with
  | .poll .nilMsg => st
  | .poll .errMsg => { st with err := true, terminated := true }
  | .poll (.eventMsg e) =>
      { st with events := st.events ++ [eventLine e.pid e.fd (formatData e.payload)] }
  | .key k =>
    if st.filtering then updateFilteringKey compile st k
    else updateNormalKey st k

/-! ## Non-interactive consumer (perf-buffer variant) -/

/-- Configuration flags of the non-interactive event loop. -/
structure NIConfig where
  showAll : Bool
  fdFilter : Nat → Bool
  skipBinary : Bool
  suppressRepeats : Bool

/-- The loop-carried suppression state: the last displayed event, its
formatted line, and the count of suppressed consecutive repeats. -/
structure NIState where
  lastEvent : Option WriteEvent
  lastDataStr : String
  repeatCount : Nat
  deriving Repr, DecidableEq

/-- One line the non-interactive loop emits (stdout lines and the stderr
reports, tagged). -/
inductive NIOut where
  | lost (n : Nat)
  | parseFailure
  | readFailure
  | line (s : String)
  deriving Repr, DecidableEq

/-- The `Last message repeated %d times` summary line. -/
def repeatSummary (pid fd n : Nat) : String :=
  "[PID " ++ toString pid ++ ", " ++ fdString fd ++ "] Last message repeated "
    ++ toString n ++ " times"

/-- Outcome of handling one perf record: the updated state and emitted
lines, or the slice-bounds panic. -/
inductive NIResult where
  | ok (st : NIState) (out : List NIOut)
  | panicked
  deriving Repr

/-- The repeat-suppression test:
`suppressRepeats && lastEvent != nil && lastEvent.FD == event.FD && lastDataStr == dataStr`. -/
def isRepeat (cfg : NIConfig) (st : NIState) (event : WriteEvent)
    (dataStr : String) : Bool :=
  cfg.suppressRepeats &&
    (match st.lastEvent with
     | some le => le.fd == event.fd && st.lastDataStr == dataStr
     | none => false)

/-- The pending-repeat flush: one summary line when `repeatCount > 0`.
(The source dereferences `lastEvent` here; a positive count implies it is
set, since the count only ever increments under that guard.) -/
def flushRepeats (st : NIState) : List NIOut :=
  if 0 < st.repeatCount then
    match st.lastEvent with
    | some le => [.line (repeatSummary le.pid le.fd st.repeatCount)]
    | none => []
  else []

/-- The body of the non-interactive loop after a successful decode: fd
filter, slice + format, binary skip, repeat suppression, flush, print,
remember. Mirrors the goroutine in the perf-buffer `main`. -/
def niHandleEvent (cfg : NIConfig) (st : NIState) (event : WriteEvent) : NIResult :=
  if !cfg.showAll && !cfg.fdFilter event.fd then .ok st []
  else
    match goSliceTo event.data event.dataLen with
    | none => .panicked
    | some data =>
      let dataStr := formatData data
      if cfg.skipBinary && !isPrintable data then .ok st []
      else if isRepeat cfg st event dataStr then
        .ok { st with repeatCount := st.repeatCount + 1 } []
      else
        .ok { lastEvent := some event, lastDataStr := dataStr, repeatCount := 0 }
          (flushRepeats st ++ [.line (eventLine event.pid event.fd dataStr)])

/-- One perf record: a lost-sample notice short-circuits, a failed decode is
reported and skipped, otherwise the event is handled. -/
def niHandleRecord (cfg : NIConfig) (st : NIState) (lost : Nat)
    (raw : List Nat) : NIResult :=
  if lost ≠ 0 then .ok st [.lost lost]
  else
    match decodeRecord raw with
    | none => .ok st [.parseFailure]
    | some event => niHandleEvent cfg st event

/-- One result of `rd.Read()` on the perf reader. -/
inductive PerfRead where
  | closed
  | readErr
  | record (lost : Nat) (raw : List Nat)

/-- The whole event-processing goroutine over a queue of read results: it
returns at `perf.ErrClosed` (emitting nothing further — in particular no
pending repeat summary), reports and continues on a read error, and
otherwise handles the record. `none` is a panic escaping the goroutine. -/
def niLoop (cfg : NIConfig) (st : NIState) :
    List PerfRead → Option (NIState × List NIOut)
  | [] => some (st, [])
  | .closed :: _ => some (st, [])
  | .readErr :: rest =>
    (niLoop cfg st rest).map fun p => (p.1, .readFailure :: p.2)
  | .record lost raw :: rest =>
    match niHandleRecord cfg st lost raw with
    | .panicked => none
    | .ok st' out =>
      (niLoop cfg st' rest).map fun p => (p.1, out ++ p.2)

/-- A concrete filtering-mode state whose draft text is the invalid pattern
`(`. -/
def draftState : TuiState :=
  { filtering := true, terminated := false, inputValue := "(",
    grepRegex := none, showAll := true, skipBinary := true,
    helpShowAll := false, events := [], err := false }

/-! ## Helper lemmas -/

lemma leBytes_four (n : Nat) :
    leBytes 4 n = [n % 256, n / 256 % 256, n / 256 / 256 % 256, n / 256 / 256 / 256 % 256] :=
  rfl

lemma leRead_leBytes_four (n : Nat) (h : n < 4294967296) : leRead (leBytes 4 n) = n := by
  rw [leBytes_four]
  simp only [leRead]
  omega

lemma length_leBytes_four (n : Nat) : (leBytes 4 n).length = 4 := rfl

/-- Truncation at the first null byte is `takeWhile (· ≠ 0)`. -/
lemma truncAtNull (data : List Nat) :
    (match indexOfByte 0 data with
     | some i => data.take i
     | none => data) = data.takeWhile (fun b => !(b == 0)) := by
  induction data with
  | nil => rfl
  | cons b bs ih =>
    by_cases hb : b = 0
    · subst hb
      rfl
    · have h1 : indexOfByte 0 (b :: bs) = (indexOfByte 0 bs).map (fun i => i + 1) := by
        simp [indexOfByte, hb]
      have h2 : (b :: bs).takeWhile (fun x => !(x == 0)) =
          b :: bs.takeWhile (fun x => !(x == 0)) := by
        simp [List.takeWhile_cons, hb]
      rw [h1, h2]
      cases h : indexOfByte 0 bs with
      | none =>
        rw [h] at ih
        exact congrArg (List.cons b) ih
      | some i =>
        rw [h] at ih
        exact congrArg (List.cons b) ih

lemma trimRightNulls_of_no_null (l : List Nat) (h : ∀ b ∈ l, (b == 0) = false) :
    trimRightNulls l = l := by
  unfold trimRightNulls
  have hdrop : l.reverse.dropWhile (fun b => b == 0) = l.reverse := by
    cases hrev : l.reverse with
    | nil => rfl
    | cons x xs =>
      have hx : x ∈ l := by
        rw [← List.mem_reverse, hrev]
        exact List.mem_cons_self x xs
      rw [List.dropWhile_cons, h x hx]
      simp
  rw [hdrop, List.reverse_reverse]

lemma toNat_charOfByte_cases (b : Nat) :
    (charOfByte b).toNat = b ∨ (charOfByte b).toNat = 0 := by
  simp only [charOfByte, Char.ofNat]
  split
  · left
    rename_i hvalid
    have hb : b < 4294967296 := by
      rcases hvalid with h | h
      · omega
      · omega
    simp [Char.ofNatAux, Char.toNat, UInt32.toNat, Nat.mod_eq_of_lt hb]
  · right
    rfl

lemma charOfByte_ne (b : Nat) (c : Char) (hc : c.toNat ≠ 0) (hb : b ≠ c.toNat) :
    charOfByte b ≠ c := by
  intro heq
  rcases toNat_charOfByte_cases b with h | h <;> rw [heq] at h
  · exact hb h.symm
  · exact hc h

/-- One byte through the three `ReplaceAll` passes is exactly `escByte`. -/
lemma escByte_chain (b : Nat) :
    replaceAllChar '\t' ['\\', 't'] (replaceAllChar '\r' ['\\', 'r']
      ((if charOfByte b = '\n' then ['\\', 'n'] else [charOfByte b]))) = escByte b := by
  by_cases h10 : b = 10
  · subst h10; decide
  · by_cases h13 : b = 13
    · subst h13; decide
    · by_cases h9 : b = 9
      · subst h9; decide
      · have hn : charOfByte b ≠ '\n' := charOfByte_ne b '\n' (by decide) (by simpa using h10)
        have hr : charOfByte b ≠ '\r' := charOfByte_ne b '\r' (by decide) (by simpa using h13)
        have ht : charOfByte b ≠ '\t' := charOfByte_ne b '\t' (by decide) (by simpa using h9)
        rw [if_neg hn]
        simp only [replaceAllChar, if_neg hr, if_neg ht, List.append_nil, List.nil_append]
        simp [escByte, h10, h13, h9]

lemma replaceAllChar_append (a : Char) (new xs ys : List Char) :
    replaceAllChar a new (xs ++ ys) = replaceAllChar a new xs ++ replaceAllChar a new ys := by
  induction xs with
  | nil => rfl
  | cons c rest ih => simp [replaceAllChar, ih]

/-- The composed escaping pipeline of `formatData` is byte-wise `escByte`. -/
lemma escape_chain (l : List Nat) :
    replaceAllChar '\t' ['\\', 't'] (replaceAllChar '\r' ['\\', 'r']
      (replaceAllChar '\n' ['\\', 'n'] (l.map charOfByte))) = (l.map escByte).flatten := by
  induction l with
  | nil => rfl
  | cons b t ih =>
    simp only [List.map_cons, List.flatten_cons]
    rw [show replaceAllChar '\n' ['\\', 'n'] (charOfByte b :: t.map charOfByte) =
        (if charOfByte b = '\n' then ['\\', 'n'] else [charOfByte b]) ++
          replaceAllChar '\n' ['\\', 'n'] (t.map charOfByte) from rfl]
    rw [replaceAllChar_append, replaceAllChar_append, escByte_chain, ih]

/-- The text branch of `formatData` is the spec's truncate-and-escape
rendering. -/
lemma formatData_text (data : List Nat) (hne : data.length ≠ 0)
    (hp : formatDataPrintable data = true) :
    formatData data = escTextRender data := by
  unfold formatData
  rw [if_neg hne]
  simp only [hp, if_true]
  rw [truncAtNull]
  rw [trimRightNulls_of_no_null _ (fun b hb => by
    have := List.mem_takeWhile_imp hb
    simpa using this)]
  rw [escape_chain]
  rfl

/-- The binary branch of `formatData`: hex dump, truncated to 32 bytes with
a byte-count annotation when longer. -/
lemma formatData_binary (data : List Nat) (hne : data.length ≠ 0)
    (hp : formatDataPrintable data = false) :
    formatData data =
      (if 32 < data.length then
        goHexDump (data.take 32) ++ "... (" ++ toString data.length ++ " bytes total)"
      else goHexDump data) := by
  unfold formatData
  rw [if_neg hne]
  simp only [hp, if_false, Bool.false_eq_true]

/-! ## Claims -/

/-- C1: for every invocation of the capture program for a watched pid with
write-syscall count `count`, the published record has
`data_len = min count 240`; in particular `data_len ≤ 240`, and a zero count
is valid and yields `data_len = 0` with an empty payload. -/
theorem C1_capture_data_len_clamped (watchSet : Nat → Bool) (pid fd : Nat)
    (userBuf : List Nat) (readOk : Bool) (count : Nat) (hw : watchSet pid = true) :
    ∃ e, trace_write watchSet pid fd userBuf readOk count = some e ∧
      e.dataLen = min count 240 ∧ e.dataLen ≤ 240 ∧
      (count = 0 → e.dataLen = 0 ∧ e.data.take e.dataLen = []) := by
  refine ⟨_, by rw [trace_write, if_pos hw], ?_, ?_, ?_⟩
  · show (if count > 240 then 240 else count) = min count 240
    rw [Nat.min_def]
    split <;> split <;> omega
  · show (if count > 240 then 240 else count) ≤ 240
    split <;> omega
  · intro hc
    subst hc
    exact ⟨rfl, rfl⟩

/-- C1 witness at count 0 and count 1000 for a concretely watched pid. -/
theorem C1_capture_data_len_clamped_witness :
    (fun p => p == 7) 7 = true ∧
      (∃ e, trace_write (fun p => p == 7) 7 1 [65] true 0 = some e ∧
        e.dataLen = min 0 240 ∧ e.dataLen ≤ 240 ∧
        (0 = 0 → e.dataLen = 0 ∧ e.data.take e.dataLen = [])) :=
  ⟨by decide, C1_capture_data_len_clamped (fun p => p == 7) 7 1 [65] true 0 (by decide)⟩

/-- C2: encoding a record with `data_len = N ≤ 240` and arbitrary pid, fd
and 240 data bytes, then decoding the fixed little-endian layout, yields the
same record, and the built event carries the same pid and fd with a payload
of length exactly N, byte-identical to the first N data bytes. -/
theorem C2_record_roundtrip (pid fd N : Nat) (data : List Nat)
    (hpid : pid < 4294967296) (hfd : fd < 4294967296)
    (hdata : data.length = 240) (hN : N ≤ 240) :
    decodeRecord (encodeRecord ⟨pid, fd, data, N⟩) = some ⟨pid, fd, data, N⟩ ∧
      buildEvent ⟨pid, fd, data, N⟩ = some ⟨pid, fd, data.take N⟩ ∧
      (data.take N).length = N := by
  have hNdata : N ≤ data.length := by omega
  refine ⟨?_, ?_, ?_⟩
  · have hshape : encodeRecord ⟨pid, fd, data, N⟩ =
        leBytes 4 pid ++ (leBytes 4 fd ++ (data ++ leBytes 4 N)) := by
      simp [encodeRecord, List.append_assoc]
    rw [hshape]
    have hlen : (leBytes 4 pid ++ (leBytes 4 fd ++ (data ++ leBytes 4 N))).length = 252 := by
      simp [length_leBytes_four, hdata]
    have htake4 : (leBytes 4 pid ++ (leBytes 4 fd ++ (data ++ leBytes 4 N))).take 4 =
        leBytes 4 pid := List.take_left' (length_leBytes_four pid)
    have hdrop4 : (leBytes 4 pid ++ (leBytes 4 fd ++ (data ++ leBytes 4 N))).drop 4 =
        leBytes 4 fd ++ (data ++ leBytes 4 N) := List.drop_left' (length_leBytes_four pid)
    have hdrop8 : (leBytes 4 pid ++ (leBytes 4 fd ++ (data ++ leBytes 4 N))).drop 8 =
        data ++ leBytes 4 N := by
      rw [show (8 : Nat) = 4 + 4 from rfl, ← List.drop_drop, hdrop4]
      exact List.drop_left' (length_leBytes_four fd)
    have hdrop248 : (leBytes 4 pid ++ (leBytes 4 fd ++ (data ++ leBytes 4 N))).drop 248 =
        leBytes 4 N := by
      rw [show (248 : Nat) = 8 + 240 from rfl, ← List.drop_drop, hdrop8]
      exact List.drop_left' hdata
    rw [decodeRecord, if_pos (by rw [hlen])]
    rw [htake4, hdrop4, hdrop8, hdrop248]
    rw [List.take_left' (length_leBytes_four fd), List.take_left' hdata]
    rw [List.take_of_length_le (by rw [length_leBytes_four])]
    rw [leRead_leBytes_four pid hpid, leRead_leBytes_four fd hfd,
      leRead_leBytes_four N (by omega)]
  · rw [buildEvent, goSliceTo, if_pos hNdata]
    rfl
  · rw [List.length_take]
    omega

/-- C2 witness at a concrete record. -/
theorem C2_record_roundtrip_witness :
    5 < 4294967296 ∧ 1 < 4294967296 ∧ (pad240 [104, 105]).length = 240 ∧ 2 ≤ 240 ∧
      (decodeRecord (encodeRecord ⟨5, 1, pad240 [104, 105], 2⟩) =
          some ⟨5, 1, pad240 [104, 105], 2⟩ ∧
        buildEvent ⟨5, 1, pad240 [104, 105], 2⟩ =
          some ⟨5, 1, (pad240 [104, 105]).take 2⟩ ∧
        ((pad240 [104, 105]).take 2).length = 2) :=
  ⟨by decide, by decide, by decide, by decide,
    C2_record_roundtrip 5 1 2 (pad240 [104, 105]) (by decide) (by decide)
      (by decide) (by decide)⟩

/-- C3: classification of a non-empty payload is threshold-exact — the
payload classifies as text exactly when the fraction of bytes that are
printable or newline/carriage-return/tab strictly exceeds 9/10 — and the
bytes 0x01..0x09 classify as binary while "Hello, World!\x01" classifies
as text. -/
theorem C3_threshold_exact (data : List Nat) (h : data ≠ []) :
    (((data.countP countedPrintable : ℚ) / (data.length : ℚ) > 9 / 10) ↔
        isPrintable data = true) ∧
      isPrintable [1, 2, 3, 4, 5, 6, 7, 8, 9] = false ∧
      isPrintable [72, 101, 108, 108, 111, 44, 32, 87, 111, 114, 108, 100, 33, 1] = true := by
  refine ⟨?_, by decide, by decide⟩
  have hlen : data.length ≠ 0 := fun hl => h (List.length_eq_zero.mp hl)
  have hn : (0 : ℚ) < (data.length : ℚ) := by
    exact_mod_cast Nat.pos_of_ne_zero hlen
  rw [isPrintable, if_neg hlen, decide_eq_true_eq]
  rw [gt_iff_lt, div_lt_div_iff₀ (by norm_num) hn]
  constructor
  · intro hq
    have : 9 * data.length < data.countP countedPrintable * 10 := by exact_mod_cast hq
    omega
  · intro hq
    exact_mod_cast by
      have : 9 * data.length < data.countP countedPrintable * 10 := by omega
      exact this

/-- C3 witness at the spec's "Hello, World!\x01" example. -/
theorem C3_threshold_exact_witness :
    ([72, 101, 108, 108, 111, 44, 32, 87, 111, 114, 108, 100, 33, 1] : List Nat) ≠ [] ∧
      ((([72, 101, 108, 108, 111, 44, 32, 87, 111, 114, 108, 100, 33,
            1].countP countedPrintable : ℚ) / 14 > 9 / 10) ↔
        isPrintable [72, 101, 108, 108, 111, 44, 32, 87, 111, 114, 108, 100, 33, 1] = true) :=
  ⟨by decide,
    (C3_threshold_exact [72, 101, 108, 108, 111, 44, 32, 87, 111, 114, 108, 100, 33, 1]
      (by decide)).1⟩

/-- C4 counterexample: the payload "Hello, World!\x01" classifies as text
under the 90%-printable rule (13 of 14 bytes), yet `formatData` renders it
as a hex dump, not as an escaped text line — formatting does not agree with
the 90%-printable classification. -/
theorem C4_counterexample :
    isPrintable [72, 101, 108, 108, 111, 44, 32, 87, 111, 114, 108, 100, 33, 1] = true ∧
      formatData [72, 101, 108, 108, 111, 44, 32, 87, 111, 114, 108, 100, 33, 1] =
        goHexDump [72, 101, 108, 108, 111, 44, 32, 87, 111, 114, 108, 100, 33, 1] ∧
      formatData [72, 101, 108, 108, 111, 44, 32, 87, 111, 114, 108, 100, 33, 1] ≠
        escTextRender [72, 101, 108, 108, 111, 44, 32, 87, 111, 114, 108, 100, 33, 1] :=
  ⟨by decide, by decide, by decide⟩

/-- C4 amended: `formatData` decides the branch with its own all-bytes scan
(every byte null, newline, carriage-return, tab, or printable), not with the
90%-ratio classification. A non-empty payload passing that scan renders as
the escaped text line and never as a hex dump; any other non-empty payload
renders as a hex dump, with only the first 32 bytes dumped and the line
annotated with the total byte count when the payload exceeds 32 bytes. -/
theorem C4_format_follows_own_scan (data : List Nat) (hne : data ≠ []) :
    (formatDataPrintable data = true → formatData data = escTextRender data) ∧
      (formatDataPrintable data = false → formatData data =
        (if 32 < data.length then
          goHexDump (data.take 32) ++ "... (" ++ toString data.length ++ " bytes total)"
        else goHexDump data)) :=
  have hlen : data.length ≠ 0 := fun hl => hne (List.length_eq_zero.mp hl)
  ⟨formatData_text data hlen, formatData_binary data hlen⟩

/-- C4 witness: a text-scan payload renders escaped, a 40-byte binary
payload renders as a 32-byte hex dump with the total-count annotation. -/
theorem C4_format_follows_own_scan_witness :
    (([104, 105, 10] : List Nat) ≠ [] ∧
      (formatDataPrintable [104, 105, 10] = true →
        formatData [104, 105, 10] = escTextRender [104, 105, 10])) ∧
      (((List.range 40).map (fun i => i + 128)) ≠ [] ∧
        (formatDataPrintable ((List.range 40).map (fun i => i + 128)) = false →
          formatData ((List.range 40).map (fun i => i + 128)) =
            (if 32 < ((List.range 40).map (fun i => i + 128)).length then
              goHexDump (((List.range 40).map (fun i => i + 128)).take 32) ++ "... (" ++
                toString ((List.range 40).map (fun i => i + 128)).length ++ " bytes total)"
            else goHexDump ((List.range 40).map (fun i => i + 128))))) :=
  ⟨⟨by decide, (C4_format_follows_own_scan [104, 105, 10] (by decide)).1⟩,
    ⟨by decide, (C4_format_follows_own_scan ((List.range 40).map (fun i => i + 128))
      (by decide)).2⟩⟩

/-- C6: a payload formatted as text renders as: truncate at the first null
byte (ignoring everything after it, which also removes any trailing null
padding), then map each newline, carriage-return and tab byte to its
two-character escape and every other byte to itself. -/
theorem C6_text_escape_transform (data : List Nat) (hne : data ≠ [])
    (hp : formatDataPrintable data = true) :
    formatData data =
      String.mk ((data.takeWhile (fun b => !(b == 0))).map escByte).flatten :=
  formatData_text data (fun hl => hne (List.length_eq_zero.mp hl)) hp

/-- C6 witness: "hi\n\tX" followed by a null, a stray byte and null padding
renders as `hi\n\tX` with the escapes spelled out and everything from the
first null dropped. -/
theorem C6_text_escape_transform_witness :
    ([104, 105, 10, 9, 88, 0, 65, 0, 0] : List Nat) ≠ [] ∧
      formatDataPrintable [104, 105, 10, 9, 88, 0, 65, 0, 0] = true ∧
      formatData [104, 105, 10, 9, 88, 0, 65, 0, 0] =
        String.mk (([104, 105, 10, 9, 88, 0, 65, 0,
          0].takeWhile (fun b => !(b == 0))).map escByte).flatten :=
  ⟨by decide, by decide,
    C6_text_escape_transform [104, 105, 10, 9, 88, 0, 65, 0, 0] (by decide) (by decide)⟩

/-- C5 counterexample: in the interactive consumer a raw record shorter than
the fixed layout makes `pollNextEvent` return the decode error as a message,
and `Update` on an error message stores it and quits — the malformed record
terminates the session instead of being skipped. -/
theorem C5_counterexample :
    (List.replicate 10 (0 : Nat)).length < 252 ∧
      pollHandle ⟨true, fun _ => false, true, none⟩ (.record (List.replicate 10 0)) =
        .yield .errMsg ∧
      (update (fun _ => none) ⟨false, false, "", none, true, true, false, [], false⟩
        (.poll .errMsg)).terminated = true :=
  ⟨by decide, by decide, rfl⟩

/-- C5 amended: a raw record shorter than the fixed layout fails to decode
in both consumers; the non-interactive consumer reports the parse failure,
skips the record and continues with unchanged state, while the interactive
consumer surfaces the decode error as a message that terminates the
session. -/
theorem C5_malformed_record (raw : List Nat) (hshort : raw.length < 252) :
    (∀ cfg st, niHandleRecord cfg st 0 raw = .ok st [.parseFailure]) ∧
      (∀ cfg, pollHandle cfg (.record raw) = .yield .errMsg) ∧
      (∀ compile st, (update compile st (.poll .errMsg)).terminated = true ∧
        (update compile st (.poll .errMsg)).err = true) := by
  have hdec : decodeRecord raw = none := by
    rw [decodeRecord, if_neg (by omega)]
  refine ⟨?_, ?_, ?_⟩
  · intro cfg st
    simp [niHandleRecord, hdec]
  · intro cfg
    simp [pollHandle, hdec]
  · intro compile st
    exact ⟨rfl, rfl⟩

/-- C5 witness at a 10-byte raw record. -/
theorem C5_malformed_record_witness :
    (List.replicate 10 (0 : Nat)).length < 252 ∧
      niHandleRecord ⟨true, fun _ => false, false, false⟩ ⟨none, "", 0⟩ 0
        (List.replicate 10 0) = .ok ⟨none, "", 0⟩ [.parseFailure] :=
  ⟨by decide, (C5_malformed_record (List.replicate 10 0) (by decide)).1 _ _⟩

/-- C7 counterexample: with repeat suppression on, two identical events
followed by channel closure leave one suppressed repeat pending
(`repeatCount = 1`), yet the loop's output contains only the single
displayed line and no summary — the end of the stream does not flush a
summary line. -/
theorem C7_counterexample :
    niLoop ⟨true, fun _ => false, true, true⟩ ⟨none, "", 0⟩
        [.record 0 (encodeRecord ⟨1, 1, pad240 [104, 105], 2⟩),
         .record 0 (encodeRecord ⟨1, 1, pad240 [104, 105], 2⟩), .closed] =
      some (⟨some ⟨1, 1, pad240 [104, 105], 2⟩, "hi", 1⟩,
        [.line "[PID 1, stdout] hi"]) := by
  decide

/-- C7 amended: with repeat suppression enabled, an event that reaches the
suppression stage is suppressed exactly when its descriptor and formatted
line match the remembered previous displayed event (`isRepeat`); a
displayed event first flushes exactly one summary line when one or more
consecutive repeats are pending and then resets the counter and remembers
itself (so a distinct intervening line prevents collapsing two identical
outer lines); but the end of the stream flushes nothing — pending repeats
are discarded at channel closure. -/
theorem C7_repeat_suppression (cfg : NIConfig) (st : NIState) (e : WriteEvent)
    (hfd : (!cfg.showAll && !cfg.fdFilter e.fd) = false)
    (hlen : e.dataLen ≤ e.data.length)
    (hbin : (cfg.skipBinary && !isPrintable (e.data.take e.dataLen)) = false) :
    (isRepeat cfg st e (formatData (e.data.take e.dataLen)) = true →
        niHandleEvent cfg st e = .ok { st with repeatCount := st.repeatCount + 1 } []) ∧
      (isRepeat cfg st e (formatData (e.data.take e.dataLen)) = false →
        niHandleEvent cfg st e =
          .ok ⟨some e, formatData (e.data.take e.dataLen), 0⟩
            (flushRepeats st ++
              [.line (eventLine e.pid e.fd (formatData (e.data.take e.dataLen)))])) ∧
      (∀ le, 0 < st.repeatCount → st.lastEvent = some le →
        flushRepeats st = [.line (repeatSummary le.pid le.fd st.repeatCount)]) ∧
      (∀ q, niLoop cfg st (.closed :: q) = some (st, [])) := by
  have hslice : goSliceTo e.data e.dataLen = some (e.data.take e.dataLen) := by
    rw [goSliceTo, if_pos hlen]
  refine ⟨?_, ?_, ?_, ?_⟩
  · intro hrep
    simp [niHandleEvent, hfd, hslice, hbin, hrep]
  · intro hrep
    simp [niHandleEvent, hfd, hslice, hbin, hrep]
  · intro le hcount hlast
    rw [flushRepeats, if_pos hcount, hlast]
  · intro q
    rfl

/-- C7 witness: a displayed event on a different descriptor flushes the one
pending repeat as a summary line before its own line. -/
theorem C7_repeat_suppression_witness :
    ((!true && !(fun _ : Nat => false) 2) = false ∧
        (2 : Nat) ≤ (pad240 [104, 105]).length ∧
        (true && !isPrintable ((pad240 [104, 105]).take 2)) = false) ∧
      (isRepeat ⟨true, fun _ => false, true, true⟩
          ⟨some ⟨1, 1, pad240 [104, 105], 2⟩, "hi", 1⟩ ⟨1, 2, pad240 [104, 105], 2⟩
          (formatData ((pad240 [104, 105]).take 2)) = false →
        niHandleEvent ⟨true, fun _ => false, true, true⟩
            ⟨some ⟨1, 1, pad240 [104, 105], 2⟩, "hi", 1⟩ ⟨1, 2, pad240 [104, 105], 2⟩ =
          .ok ⟨some ⟨1, 2, pad240 [104, 105], 2⟩, formatData ((pad240 [104, 105]).take 2), 0⟩
            (flushRepeats ⟨some ⟨1, 1, pad240 [104, 105], 2⟩, "hi", 1⟩ ++
              [.line (eventLine 1 2 (formatData ((pad240 [104, 105]).take 2)))])) :=
  ⟨⟨by decide, by decide, by decide⟩,
    (C7_repeat_suppression ⟨true, fun _ => false, true, true⟩
      ⟨some ⟨1, 1, pad240 [104, 105], 2⟩, "hi", 1⟩ ⟨1, 2, pad240 [104, 105], 2⟩
      (by decide) (by decide) (by decide)).2.1⟩

/-- C8: confirming a filter draft that does not compile leaves no active
regex: filtering mode ends, the session is not terminated, and the regex
gate then suppresses no payload. -/
theorem C8_invalid_pattern_disables_filtering
    (compile : String → Option (List Nat → Bool)) (st : TuiState)
    (hf : st.filtering = true) (hterm : st.terminated = false)
    (hinv : compile st.inputValue = none) :
    (update compile st (.key .enter)).grepRegex = none ∧
      (update compile st (.key .enter)).filtering = false ∧
      (update compile st (.key .enter)).terminated = false ∧
      ∀ payload, regexSkips (update compile st (.key .enter)).grepRegex payload = false := by
  have hupd : update compile st (.key .enter) =
      { st with grepRegex := compile st.inputValue, filtering := false } := by
    simp only [update, hf, if_true]
    rfl
  rw [hupd]
  exact ⟨hinv, rfl, hterm, fun payload => by simp [regexSkips, hinv]⟩

/-- C8 witness with an always-failing compiler standing in for
`regexp.Compile` on the invalid pattern `(`. -/
theorem C8_invalid_pattern_disables_filtering_witness :
    (draftState.filtering = true ∧ draftState.terminated = false) ∧
      ((update (fun _ => none) draftState (.key .enter)).grepRegex = none ∧
        (update (fun _ => none) draftState (.key .enter)).filtering = false ∧
        (update (fun _ => none) draftState (.key .enter)).terminated = false ∧
        ∀ payload,
          regexSkips (update (fun _ => none) draftState (.key .enter)).grepRegex
            payload = false) :=
  ⟨⟨rfl, rfl⟩,
    C8_invalid_pattern_disables_filtering (fun _ => none) draftState rfl rfl rfl⟩

/-- C9 counterexample: channel closure produces the nil message, which the
event loop discards, so a consumer in the Normal state stays in Normal —
closure does not drive the state machine to Terminated. -/
theorem C9_counterexample :
    pollHandle ⟨true, fun _ => false, true, none⟩ .closed = .yield .nilMsg ∧
      (update (fun _ => none) ⟨false, false, "", none, true, true, false, [], false⟩
        (.poll .nilMsg)).terminated = false ∧
      (update (fun _ => none) ⟨false, false, "", none, true, true, false, [], false⟩
        (.poll .nilMsg)).filtering = false :=
  ⟨rfl, rfl, rfl⟩

/-- C9 amended: from every state an unrecoverable read error is returned as
an error message and `Update` on it transitions to Terminated; channel
closure (or EOF) instead yields the nil message, which is discarded before
`Update`, leaving the state machine exactly where it was, still running. -/
theorem C9_read_error_terminates (cfg : FilterCfg)
    (compile : String → Option (List Nat → Bool)) (st : TuiState) :
    (pollHandle cfg .readErr = .yield .errMsg ∧
        (update compile st (.poll .errMsg)).terminated = true) ∧
      (pollHandle cfg .closed = .yield .nilMsg ∧
        pollHandle cfg .eof = .yield .nilMsg ∧
        update compile st (.poll .nilMsg) = st) :=
  ⟨⟨rfl, rfl⟩, rfl, rfl, rfl⟩

/-- C10: the decoder slices the fixed 240-byte array to `data_len` without
validating it: whenever `data_len ≤ 240` the slice is in bounds and the
event carries exactly `data_len` payload bytes, and for any record carrying
`data_len > 240` the slice falls outside the array — a run-time panic in
`pollNextEvent`, not a returned error — while the non-interactive loop
panics likewise for any record that passes its descriptor filter. -/
theorem C10_slice_unvalidated (raw : List Nat) (rec : WriteEvent)
    (hdec : decodeRecord raw = some rec) :
    rec.data.length = 240 ∧
      (rec.dataLen ≤ 240 →
        ∃ p, goSliceTo rec.data rec.dataLen = some p ∧ p.length = rec.dataLen ∧
          buildEvent rec = some ⟨rec.pid, rec.fd, p⟩) ∧
      (240 < rec.dataLen →
        buildEvent rec = none ∧
          (∀ cfg, pollHandle cfg (.record raw) = .panicked) ∧
          (∀ cfg st, (!cfg.showAll && !cfg.fdFilter rec.fd) = false →
            niHandleRecord cfg st 0 raw = .panicked)) := by
  have hlen : 252 ≤ raw.length := by
    by_contra hlt
    rw [decodeRecord, if_neg hlt] at hdec
    exact Option.noConfusion hdec
  have hrec : rec =
      ⟨leRead (raw.take 4), leRead ((raw.drop 4).take 4), (raw.drop 8).take 240,
        leRead ((raw.drop 248).take 4)⟩ := by
    rw [decodeRecord, if_pos hlen] at hdec
    exact ((Option.some.injEq _ _).mp hdec).symm
  have hdatalen : rec.data.length = 240 := by
    rw [hrec]
    simp only [List.length_take, List.length_drop]
    omega
  refine ⟨hdatalen, ?_, ?_⟩
  · intro h240
    have hin : rec.dataLen ≤ rec.data.length := by omega
    refine ⟨rec.data.take rec.dataLen, by rw [goSliceTo, if_pos hin], ?_, ?_⟩
    · rw [List.length_take]; omega
    · rw [buildEvent, goSliceTo, if_pos hin, Option.map_some']
  · intro h240
    have hout : ¬rec.dataLen ≤ rec.data.length := by omega
    have hbuild : buildEvent rec = none := by
      rw [buildEvent, goSliceTo, if_neg hout, Option.map_none']
    refine ⟨hbuild, ?_, ?_⟩
    · intro cfg
      simp [pollHandle, hdec, hbuild]
    · intro cfg st hfd
      simp [niHandleRecord, hdec, niHandleEvent, hfd, goSliceTo, hout]

/-- C10 witness: a wire record carrying `data_len = 241` decodes, and the
out-of-bounds branch applies to it — the slice panics in both consumers. -/
theorem C10_slice_unvalidated_witness :
    decodeRecord (encodeRecord ⟨1, 1, pad240 [], 241⟩) = some ⟨1, 1, pad240 [], 241⟩ ∧
      (240 < (241 : Nat) →
        buildEvent ⟨1, 1, pad240 [], 241⟩ = none ∧
          (∀ cfg, pollHandle cfg (.record (encodeRecord ⟨1, 1, pad240 [], 241⟩)) =
            .panicked) ∧
          (∀ cfg st, (!cfg.showAll && !cfg.fdFilter 1) = false →
            niHandleRecord cfg st 0 (encodeRecord ⟨1, 1, pad240 [], 241⟩) = .panicked)) :=
  ⟨by decide,
    (C10_slice_unvalidated (encodeRecord ⟨1, 1, pad240 [], 241⟩) ⟨1, 1, pad240 [], 241⟩
      (by decide)).2.2⟩

end Kubeglass
